import Mathlib

/-!
Verification development for the Seraaj volunteer-matching platform.

Shallow embedding of the core components described in the specification:
the application state machine (src/services/applications/state_machine.py),
the matching/ranking algorithm (src/services/matching/algorithm.py), the
event store (src/infrastructure/db/event_store.py, connection.py), the
projection service (src/infrastructure/db/projections.py), and the
application submission service (src/services/applications/service.py).

Python dicts are embedded as structures, sets as Finsets, floats as reals
(for the transcendental haversine path) or rationals/naturals where the
code only manipulates discrete data.  Database tables are embedded as
functions from keys to optional rows; a raised exception inside a session
rolls the transaction back, which the embedding renders as returning the
unchanged table.  Wall-clock timestamps and randomly generated UUIDs are
passed in as explicit parameters.
-/

set_option maxHeartbeats 1000000

namespace Seraaj

/-! ### Application state machine — src/services/applications/state_machine.py -/

/-- Enum `ApplicationState` from state_machine.py. -/
inductive ApplicationState
  | draft
  | submitted
  | reviewing
  | accepted
  | rejected
  | completed
  | cancelled
  deriving DecidableEq, Repr

open ApplicationState

/-- The `self._transitions` dict built in `ApplicationStateMachine.__init__`. -/
def transitionsTable : ApplicationState → List ApplicationState
  | .draft => [.submitted, .cancelled]
  | .submitted => [.reviewing, .cancelled]
  | .reviewing => [.accepted, .rejected]
  | .accepted => [.completed, .cancelled]
  | .rejected => []
  | .completed => []
  | .cancelled => []

/-- The `ApplicationStateMachine` object; its only mutable field is `self.state`. -/
structure ApplicationStateMachine where
  state : ApplicationState
  deriving DecidableEq, Repr

/-- The `action_mapping` dict lookup in `ApplicationStateMachine._action_to_state`. -/
def action_to_state (action : String) : Option ApplicationState :=
  if action = "submit" then some .submitted
  else if action = "review" then some .reviewing
  else if action = "accept" then some .accepted
  else if action = "reject" then some .rejected
  else if action = "complete" then some .completed
  else if action = "cancel" then some .cancelled
  else none

/-- The `state_mapping` dict lookup in `ApplicationStateMachine._state_to_action`,
with the dict `.get` default `"unknown"`. -/
def state_to_action : ApplicationState → String
  | .submitted => "submit"
  | .reviewing => "review"
  | .accepted => "accept"
  | .rejected => "reject"
  | .completed => "complete"
  | .cancelled => "cancel"
  | .draft => "unknown"

/-- `ApplicationStateMachine.can_transition`. -/
def can_transition (m : ApplicationStateMachine) (action : String) : Bool :=
  match action_to_state action with
  | none => false
  | some target => decide (target ∈ transitionsTable m.state)

/-- `ApplicationStateMachine.get_available_actions` (every enum member is truthy,
so the `if state` filter in the comprehension keeps everything). -/
def get_available_actions (m : ApplicationStateMachine) : List String :=
  (transitionsTable m.state).map state_to_action

/-- `ApplicationStateMachine.transition`.  The Python method mutates `self.state`
and returns `True`, or raises `ValueError`; the embedding returns the machine
after the call together with the returned value or raised error. -/
def transition (m : ApplicationStateMachine) (action : String) :
    ApplicationStateMachine × Except String Bool :=
  match action_to_state action with
  | none => (m, .error ("Unknown action: " ++ action))
  | some target =>
    if can_transition m action then
      ({ state := target }, .ok true)
    else
      (m, .error ("Cannot " ++ action ++ " application in current state"))

/-- `ApplicationStateMachine.is_terminal`. -/
def is_terminal (m : ApplicationStateMachine) : Bool :=
  decide (m.state ∈ [ApplicationState.rejected, .completed, .cancelled])

lemma action_to_state_eq_some {a : String} {t : ApplicationState}
    (h : action_to_state a = some t) : a = state_to_action t := by
  unfold action_to_state at h
  split_ifs at h with h1 h2 h3 h4 h5 h6 <;>
    simp only [Option.some.injEq] at h <;>
    subst h <;> simp [state_to_action, h1]
  all_goals first
    | exact h2 | exact h3 | exact h4 | exact h5 | exact h6

/-- Claim C3: the transition table is exactly
draft→\x7bsubmitted, cancelled\x7d, submitted→\x7breviewing, cancelled\x7d,
reviewing→\x7baccepted, rejected\x7d, accepted→\x7bcompleted, cancelled\x7d,
each target reached by exactly one named action; rejected, completed, cancelled
are terminal (every action fails from them); `transition` moves to the unique
target state when the action is permitted and fails otherwise. -/
theorem stateMachine_transition_table (s : ApplicationState) (a : String) :
    (can_transition ⟨s⟩ a = true ↔
      ((s = .draft ∧ (a = "submit" ∨ a = "cancel")) ∨
       (s = .submitted ∧ (a = "review" ∨ a = "cancel")) ∨
       (s = .reviewing ∧ (a = "accept" ∨ a = "reject")) ∨
       (s = .accepted ∧ (a = "complete" ∨ a = "cancel")))) ∧
    (∀ t, action_to_state a = some t → can_transition ⟨s⟩ a = true →
      transition ⟨s⟩ a = (⟨t⟩, .ok true)) ∧
    (can_transition ⟨s⟩ a = false →
      ∃ msg, transition ⟨s⟩ a = (⟨s⟩, .error msg)) ∧
    ((s = .rejected ∨ s = .completed ∨ s = .cancelled) →
      ∃ msg, transition ⟨s⟩ a = (⟨s⟩, .error msg)) ∧
    (∀ a₁ a₂ t, action_to_state a₁ = some t → action_to_state a₂ = some t →
      a₁ = a₂) := by
  have key : can_transition ⟨s⟩ a = false →
      ∃ msg, transition ⟨s⟩ a = (⟨s⟩, .error msg) := by
    intro hcan
    cases h : action_to_state a with
    | none => exact ⟨"Unknown action: " ++ a, by simp [transition, h]⟩
    | some t =>
      simp only [can_transition, h, decide_eq_false_iff_not] at hcan
      exact ⟨"Cannot " ++ a ++ " application in current state",
        by simp [transition, h, can_transition, hcan]⟩
  refine ⟨?_, ?_, key, ?_, ?_⟩
  · unfold can_transition action_to_state
    split_ifs with h1 h2 h3 h4 h5 h6 <;>
      subst_vars <;> cases s <;> simp_all [transitionsTable]
  · intro t ht hcan
    unfold transition
    rw [ht]
    simp [hcan]
  · intro hterm
    apply key
    unfold can_transition
    cases h : action_to_state a with
    | none => rfl
    | some t =>
      rcases hterm with h' | h' | h' <;> subst h' <;> simp [transitionsTable]
  · intro a₁ a₂ t h₁ h₂
    rw [action_to_state_eq_some h₁, action_to_state_eq_some h₂]

/-- Witness for C3 at concrete inputs: from `reviewing`, `accept` is permitted
and transitions to `accepted`; from the terminal state `completed`, `cancel`
fails and the state is unchanged. -/
theorem stateMachine_transition_table_witness :
    can_transition ⟨.reviewing⟩ "accept" = true ∧
    transition ⟨.reviewing⟩ "accept" = (⟨.accepted⟩, .ok true) ∧
    (∃ msg, transition ⟨.completed⟩ "cancel" = (⟨.completed⟩, .error msg)) := by
  have h1 := (stateMachine_transition_table .reviewing "accept").1.mpr
    (Or.inr (Or.inr (Or.inl ⟨rfl, Or.inl rfl⟩)))
  refine ⟨h1, ?_, ?_⟩
  · exact (stateMachine_transition_table .reviewing "accept").2.1 .accepted rfl h1
  · exact (stateMachine_transition_table .completed "cancel").2.2.2.1
      (Or.inr (Or.inl rfl))

/-- Claim C10: `transition` is atomic on failure — whenever it raises, the
machine state after the call is the state before the call; in particular a
machine in a terminal state is never mutated by any `transition` call. -/
theorem transition_atomic (m : ApplicationStateMachine) (a : String) :
    (∀ msg, (transition m a).2 = .error msg → (transition m a).1 = m) ∧
    (is_terminal m = true → (transition m a).1 = m) := by
  constructor
  · intro msg herr
    unfold transition at herr ⊢
    cases h : action_to_state a with
    | none => rfl
    | some t =>
      by_cases hcan : can_transition m a
      · simp [h, hcan] at herr
      · simp [hcan]
  · intro hterm
    unfold transition
    cases h : action_to_state a with
    | none => rfl
    | some t =>
      have hcan : can_transition m a = false := by
        unfold can_transition
        rw [h]
        simp only [is_terminal, decide_eq_true_eq] at hterm
        obtain ⟨st⟩ := m
        fin_cases hterm <;> simp [transitionsTable]
      simp [hcan]

/-- Witness for C10: a failing transition (`submit` from `accepted`) and a
terminal-state machine (`cancelled`) are both left unchanged. -/
theorem transition_atomic_witness :
    (transition ⟨.accepted⟩ "submit").1 = ⟨.accepted⟩ ∧
    (transition ⟨.cancelled⟩ "review").1 = ⟨.cancelled⟩ := by
  constructor
  · exact (transition_atomic ⟨.accepted⟩ "submit").1
      "Cannot submit application in current state" rfl
  · exact (transition_atomic ⟨.cancelled⟩ "review").2 (by decide)

/-! ### Event store — src/infrastructure/db/event_store.py, connection.py

The `events` table is embedded as a list of rows in insertion order; the
randomly generated `event_id` is not modelled and the wall-clock
`occurred_at` is an explicit parameter.  A raised exception rolls the
session back, so the store after a failed append is the store before it. -/

/-- Row of the `events` table (dataclass `StoredEvent`), generic in the
payload type; `event_id` (a fresh UUID) is not modelled. -/
structure StoredEvent (π : Type) where
  aggregate_id : Nat
  aggregate_type : String
  event_type : String
  occurred_at : Nat
  version : Nat
  payload : π
  contracts_version : String

/-- Error classification used by the store and the retry wrapper:
`ConcurrencyError` is a plain `Exception`, while transient faults are the
`asyncpg.PostgresError`/`ConnectionError` family caught by `ConnectionRetry`. -/
inductive StoreError
  | concurrency
  | transient
  deriving DecidableEq, Repr

/-- `ConnectionRetry._db_errors` membership: only transient storage errors
belong to the caught exception tuple. -/
def is_db_error : StoreError → Bool
  | .transient => true
  | .concurrency => false

/-- `EventStore._get_current_version`:
`SELECT COALESCE(MAX(version), 0) FROM events WHERE aggregate_id = :aggregate_id`. -/
def get_current_version (s : List (StoredEvent π)) (aggregate_id : Nat) : Nat :=
  s.foldl (fun acc e => if e.aggregate_id = aggregate_id then max acc e.version else acc) 0

/-- `EventStore.get_aggregate_version` (public wrapper over
`_get_current_version`). -/
def get_aggregate_version (s : List (StoredEvent π)) (aggregate_id : Nat) : Nat :=
  get_current_version s aggregate_id

/-- `EventStore.append_event` (the `_append` body): with an
`expected_version` the current max version must match or `ConcurrencyError`
is raised; without one the version is auto-incremented from the current max.
Returns the stored event and the committed store. -/
def append_event (s : List (StoredEvent π)) (aggregate_id : Nat)
    (aggregate_type event_type : String) (payload : π)
    (expected_version : Option Nat) (now : Nat) :
    Except StoreError (StoredEvent π × List (StoredEvent π)) :=
  match expected_version with
  | some ev =>
    let current := get_current_version s aggregate_id
    if current ≠ ev then .error .concurrency
    else
      let e : StoredEvent π :=
        ⟨aggregate_id, aggregate_type, event_type, now, ev + 1, payload, "1.0.0"⟩
      .ok (e, s ++ [e])
  | none =>
    let current := get_current_version s aggregate_id
    let e : StoredEvent π :=
      ⟨aggregate_id, aggregate_type, event_type, now, current + 1, payload, "1.0.0"⟩
    .ok (e, s ++ [e])

/-- State of the `events` table after an `append_event` call: the committed
store on success, the rolled-back (unchanged) store on error. -/
def store_after (s : List (StoredEvent π)) (aggregate_id : Nat)
    (aggregate_type event_type : String) (payload : π)
    (expected_version : Option Nat) (now : Nat) : List (StoredEvent π) :=
  match append_event s aggregate_id aggregate_type event_type payload expected_version now with
  | .ok (_, s2) => s2
  | .error _ => s

/-- `ConnectionRetry.execute` loop from `connection.py`, starting at a given
attempt index: non-`_db_errors` exceptions propagate out of the `try`
immediately; caught errors are retried while `attempt < max_retries`.  The
second component counts how many times the operation ran (the backoff sleep
durations are not modelled). -/
def retry_from (op : Nat → Except StoreError α) (max_retries : Nat) (attempt : Nat) :
    Except StoreError α × Nat :=
  match op attempt with
  | .ok a => (.ok a, attempt + 1)
  | .error e =>
    if h : is_db_error e = true ∧ attempt < max_retries then
      retry_from op max_retries (attempt + 1)
    else
      (.error e, attempt + 1)
termination_by max_retries + 1 - attempt
decreasing_by omega

/-- `ConnectionRetry.execute` (`default_retry` has `max_retries = 3`). -/
def retry_execute (max_retries : Nat) (op : Nat → Except StoreError α) :
    Except StoreError α × Nat :=
  retry_from op max_retries 0

/-- Versions currently stored for one aggregate, in insertion order
(`SELECT version FROM events WHERE aggregate_id = ... ORDER BY version`
returns the same multiset; sequential appends insert in version order). -/
def versions_of (s : List (StoredEvent π)) (aggregate_id : Nat) : List Nat :=
  (s.filter (fun e => decide (e.aggregate_id = aggregate_id))).map (fun e => e.version)

/-- Sequentially append one event per `(payload, timestamp)` item for a fixed
aggregate, always with `expected_version` omitted, keeping the store that each
call commits. -/
def append_seq (s : List (StoredEvent π)) (aggregate_id : Nat)
    (aggregate_type event_type : String) : List (π × Nat) → List (StoredEvent π)
  | [] => s
  | (p, t) :: rest =>
    append_seq (store_after s aggregate_id aggregate_type event_type p none t)
      aggregate_id aggregate_type event_type rest

lemma get_current_version_append (s : List (StoredEvent π)) (e : StoredEvent π)
    (aggregate_id : Nat) :
    get_current_version (s ++ [e]) aggregate_id =
      if e.aggregate_id = aggregate_id
        then max (get_current_version s aggregate_id) e.version
        else get_current_version s aggregate_id := by
  unfold get_current_version
  rw [List.foldl_append]
  simp

lemma versions_of_append (s : List (StoredEvent π)) (e : StoredEvent π)
    (aggregate_id : Nat) (h : e.aggregate_id = aggregate_id) :
    versions_of (s ++ [e]) aggregate_id = versions_of s aggregate_id ++ [e.version] := by
  unfold versions_of
  rw [List.filter_append, List.map_append]
  simp [h]

lemma get_current_version_of_no_events (s : List (StoredEvent π)) (aggregate_id : Nat)
    (h : ∀ e ∈ s, e.aggregate_id ≠ aggregate_id) :
    get_current_version s aggregate_id = 0 := by
  induction s with
  | nil => rfl
  | cons e rest ih =>
    unfold get_current_version
    simp only [List.foldl_cons, if_neg (h e (List.mem_cons_self e rest))]
    exact ih fun e' he' => h e' (List.mem_cons_of_mem e he')

lemma versions_of_no_events (s : List (StoredEvent π)) (aggregate_id : Nat)
    (h : ∀ e ∈ s, e.aggregate_id ≠ aggregate_id) :
    versions_of s aggregate_id = [] := by
  have hf : List.filter (fun e => decide (e.aggregate_id = aggregate_id)) s = [] := by
    rw [List.filter_eq_nil_iff]
    intro e he
    simp [h e he]
  unfold versions_of
  rw [hf]
  rfl

lemma append_seq_spec (aggregate_id : Nat) (aggregate_type event_type : String) :
    ∀ (items : List (π × Nat)) (s : List (StoredEvent π)) (k : Nat),
      versions_of s aggregate_id = List.range' 1 k →
      get_current_version s aggregate_id = k →
      versions_of (append_seq s aggregate_id aggregate_type event_type items) aggregate_id
        = List.range' 1 (k + items.length) ∧
      get_current_version (append_seq s aggregate_id aggregate_type event_type items)
        aggregate_id = k + items.length := by
  intro items
  induction items with
  | nil => intro s k hv hc; simpa using ⟨hv, hc⟩
  | cons item rest ih =>
    intro s k hv hc
    obtain ⟨p, t⟩ := item
    have hstep : store_after s aggregate_id aggregate_type event_type p none t =
        s ++ [⟨aggregate_id, aggregate_type, event_type, t, k + 1, p, "1.0.0"⟩] := by
      unfold store_after append_event
      simp [hc]
    unfold append_seq
    rw [hstep]
    have hv2 : versions_of
        (s ++ [⟨aggregate_id, aggregate_type, event_type, t, k + 1, p, "1.0.0"⟩])
        aggregate_id = List.range' 1 (k + 1) := by
      rw [versions_of_append _ _ _ rfl, hv]
      have : List.range' 1 (k + 1) = List.range' 1 k ++ [1 + k] := by
        simpa using List.range'_1_concat 1 k
      rw [this]
      simp [Nat.add_comm]
    have hc2 : get_current_version
        (s ++ [⟨aggregate_id, aggregate_type, event_type, t, k + 1, p, "1.0.0"⟩])
        aggregate_id = k + 1 := by
      rw [get_current_version_append]
      simp [hc]
    have := ih _ (k + 1) hv2 hc2
    simpa [Nat.add_assoc, Nat.add_comm, Nat.add_left_comm] using this

/-- Claim C1: starting from a store holding no events for the aggregate,
appending N events sequentially with `expected_version` omitted stores
versions exactly 1, 2, ..., N (gapless, strictly increasing, starting at 1),
and `get_aggregate_version` is 0 for an aggregate with no events. -/
theorem append_versions_gapless (s : List (StoredEvent π)) (aggregate_id : Nat)
    (aggregate_type event_type : String) (items : List (π × Nat))
    (h : ∀ e ∈ s, e.aggregate_id ≠ aggregate_id) :
    versions_of (append_seq s aggregate_id aggregate_type event_type items) aggregate_id
      = List.range' 1 items.length ∧
    get_aggregate_version s aggregate_id = 0 := by
  have h0 := get_current_version_of_no_events s aggregate_id h
  have := append_seq_spec aggregate_id aggregate_type event_type items s 0
    (by simpa using versions_of_no_events s aggregate_id h) h0
  exact ⟨by simpa using this.1, h0⟩

/-- Witness for C1: three sequential appends for aggregate 7 into a store
holding only an event of aggregate 3 yield versions [1, 2, 3]. -/
theorem append_versions_gapless_witness :
    versions_of
      (append_seq [⟨3, "Application", "application.created", 0, 1, (), "1.0.0"⟩]
        7 "Application" "application.created" [((), 0), ((), 1), ((), 2)]) 7
      = List.range' 1 3 ∧
    get_aggregate_version
      ([⟨3, "Application", "application.created", 0, 1, (), "1.0.0"⟩] :
        List (StoredEvent Unit)) 7 = 0 :=
  append_versions_gapless _ 7 "Application" "application.created"
    [((), 0), ((), 1), ((), 2)] (by decide)

/-- Claim C2: appending with an `expected_version` different from the current
max version raises `ConcurrencyError`, stores no event row, and the error is
surfaced to the caller after exactly one attempt — `ConnectionRetry` retries
only transient storage errors, never a `ConcurrencyError`. -/
theorem concurrency_error_not_retried (s : List (StoredEvent π)) (aggregate_id : Nat)
    (aggregate_type event_type : String) (payload : π) (expected now : Nat)
    (h : expected ≠ get_aggregate_version s aggregate_id) :
    append_event s aggregate_id aggregate_type event_type payload (some expected) now
      = .error .concurrency ∧
    store_after s aggregate_id aggregate_type event_type payload (some expected) now = s ∧
    (∀ max_retries,
      retry_execute max_retries
        (fun _ => (append_event s aggregate_id aggregate_type event_type payload
          (some expected) now).map Prod.fst)
        = (.error .concurrency, 1)) := by
  have happ : append_event s aggregate_id aggregate_type event_type payload
      (some expected) now = .error .concurrency := by
    unfold append_event
    have : get_current_version s aggregate_id ≠ expected := fun hh => h hh.symm
    simp [this]
  refine ⟨happ, ?_, ?_⟩
  · unfold store_after
    rw [happ]
  · intro max_retries
    unfold retry_execute retry_from
    rw [happ]
    simp [Except.map, is_db_error]

/-- Witness for C2: appending to an empty store with stale expected version 5
fails with `ConcurrencyError`, leaves the store empty, and the default retry
policy (`max_retries = 3`) runs the operation exactly once. -/
theorem concurrency_error_not_retried_witness :
    append_event ([] : List (StoredEvent Unit)) 1 "Application" "application.created"
      () (some 5) 0 = .error .concurrency ∧
    store_after ([] : List (StoredEvent Unit)) 1 "Application" "application.created"
      () (some 5) 0 = [] ∧
    retry_execute 3
      (fun _ => (append_event ([] : List (StoredEvent Unit)) 1 "Application"
        "application.created" () (some 5) 0).map Prod.fst)
      = (.error .concurrency, 1) := by
  have h := concurrency_error_not_retried ([] : List (StoredEvent Unit)) 1
    "Application" "application.created" () 5 0 (by decide)
  exact ⟨h.1, h.2.1, h.2.2 3⟩

/-! ### Matching algorithm — src/services/matching/algorithm.py

Volunteer and opportunity dicts are embedded as structures: the skill and
time-slot lists become Finsets (the code converts them to `set` before use)
and the optional location dict becomes `Option Loc`.  Floats are embedded as
real numbers; the human-readable explanation strings are not modelled (no
claim concerns their content). -/

/-- Location dict with `latitude` and `longitude` keys (a missing key reads
as the falsy 0 via `.get(key, 0)`, which the sentinel check treats the same
as an explicit 0). -/
structure Loc where
  latitude : ℝ
  longitude : ℝ

/-- Volunteer input dict: `skills`, `location`, `availability`. -/
structure Volunteer where
  skills : Finset String
  location : Option Loc
  availability : Finset String

/-- Opportunity input dict: `requiredSkills`, `timeSlots`, `location`. -/
structure Opportunity where
  requiredSkills : Finset String
  timeSlots : Finset String
  location : Option Loc

/-- The `components` dict of a `MatchScore`. -/
structure ScoreComponents where
  distance : ℝ
  skills : ℝ
  availability : ℝ

/-- Dataclass `MatchScore` (the `explanation` string list is not modelled). -/
structure MatchScore where
  total : ℝ
  components : ScoreComponents

/-- Python `math.radians`. -/
noncomputable def radians (x : ℝ) : ℝ := x * Real.pi / 180

/-- Python `math.atan2 y x`, i.e. the argument of the complex number
`x + y*i`. -/
noncomputable def atan2 (y x : ℝ) : ℝ := Complex.arg ⟨x, y⟩

/-- Haversine great-circle distance with Earth radius `R = 6371` km, as in
the body of `MatchingAlgorithm._calculate_distance`. -/
noncomputable def haversine (lat1 lon1 lat2 lon2 : ℝ) : ℝ :=
  let R : ℝ := 6371
  let dlat := radians (lat2 - lat1)
  let dlon := radians (lon2 - lon1)
  let a := Real.sin (dlat / 2) ^ 2 +
    Real.cos (radians lat1) * Real.cos (radians lat2) * Real.sin (dlon / 2) ^ 2
  let c := 2 * atan2 (Real.sqrt a) (Real.sqrt (1 - a))
  R * c

/-- `MatchingAlgorithm._calculate_distance`: a missing location dict, or any
falsy (zero) coordinate, yields the sentinel 999 instead of an error. -/
noncomputable def calculate_distance (loc1 loc2 : Option Loc) : ℝ :=
  match loc1, loc2 with
  | some l1, some l2 =>
    if l1.latitude = 0 ∨ l1.longitude = 0 ∨ l2.latitude = 0 ∨ l2.longitude = 0 then 999
    else haversine l1.latitude l1.longitude l2.latitude l2.longitude
  | _, _ => 999

/-- `MatchingAlgorithm.calculate_match_score` with weights
distance 0.4, skills 0.35, availability 0.25 (the `WEIGHTS` dict). -/
noncomputable def calculate_match_score (volunteer : Volunteer) (opportunity : Opportunity) :
    MatchScore :=
  let distance_km := calculate_distance volunteer.location opportunity.location
  let distScore : ℝ :=
    if distance_km ≤ 5 then 1
    else if distance_km ≤ 15 then 0.8
    else if distance_km ≤ 30 then 0.5
    else 0.2
  let skillScore : ℝ :=
    if opportunity.requiredSkills ≠ ∅ then
      ((volunteer.skills ∩ opportunity.requiredSkills).card : ℝ) /
        (opportunity.requiredSkills.card : ℝ)
    else 1
  let availScore : ℝ :=
    if opportunity.timeSlots ≠ ∅ ∧ volunteer.availability ≠ ∅ then
      ((volunteer.availability ∩ opportunity.timeSlots).card : ℝ) /
        (opportunity.timeSlots.card : ℝ)
    else 0.5
  { total := min (distScore * 0.4 + skillScore * 0.35 + availScore * 0.25) 1,
    components := { distance := distScore, skills := skillScore, availability := availScore } }

/-- The descending-by-total comparison used by
`scored.sort(key=lambda x: x[1].total, reverse=True)`. -/
def scoreDesc (p q : Opportunity × MatchScore) : Prop := q.2.total ≤ p.2.total

noncomputable instance : DecidableRel scoreDesc :=
  fun p q => inferInstanceAs (Decidable (q.2.total ≤ p.2.total))

instance : IsTotal (Opportunity × MatchScore) scoreDesc :=
  ⟨fun p q => le_total q.2.total p.2.total⟩

instance : IsTrans (Opportunity × MatchScore) scoreDesc :=
  ⟨fun _ _ _ h1 h2 => le_trans h2 h1⟩

/-- `MatchingAlgorithm.rank_opportunities`: score every candidate, keep those
with total ≥ 0.3, sort by total descending, truncate to `limit`. -/
noncomputable def rank_opportunities (volunteer : Volunteer)
    (opportunities : List Opportunity) (limit : Nat) : List (Opportunity × MatchScore) :=
  let scored := (opportunities.map fun o => (o, calculate_match_score volunteer o)).filter
    (fun p => decide ((0.3 : ℝ) ≤ p.2.total))
  (scored.insertionSort scoreDesc).take limit

lemma components_distance_eq (v : Volunteer) (o : Opportunity) :
    (calculate_match_score v o).components.distance =
      if calculate_distance v.location o.location ≤ 5 then 1
      else if calculate_distance v.location o.location ≤ 15 then 0.8
      else if calculate_distance v.location o.location ≤ 30 then 0.5
      else 0.2 := rfl

lemma components_skills_eq (v : Volunteer) (o : Opportunity) :
    (calculate_match_score v o).components.skills =
      if o.requiredSkills ≠ ∅ then
        ((v.skills ∩ o.requiredSkills).card : ℝ) / (o.requiredSkills.card : ℝ)
      else 1 := rfl

lemma components_availability_eq (v : Volunteer) (o : Opportunity) :
    (calculate_match_score v o).components.availability =
      if o.timeSlots ≠ ∅ ∧ v.availability ≠ ∅ then
        ((v.availability ∩ o.timeSlots).card : ℝ) / (o.timeSlots.card : ℝ)
      else 0.5 := rfl

lemma total_eq (v : Volunteer) (o : Opportunity) :
    (calculate_match_score v o).total =
      min ((calculate_match_score v o).components.distance * 0.4 +
        (calculate_match_score v o).components.skills * 0.35 +
        (calculate_match_score v o).components.availability * 0.25) 1 := rfl

lemma atan2_zero_one : atan2 0 1 = 0 := by
  unfold atan2
  have h : (⟨1, 0⟩ : ℂ) = 1 := by
    apply Complex.ext <;> simp
  rw [h, Complex.arg_one]

lemma haversine_self (lat lon : ℝ) : haversine lat lon lat lon = 0 := by
  unfold haversine radians
  rw [sub_self, sub_self]
  norm_num [atan2_zero_one]

lemma calculate_distance_self (l : Loc) (h1 : l.latitude ≠ 0) (h2 : l.longitude ≠ 0) :
    calculate_distance (some l) (some l) = 0 := by
  show (if l.latitude = 0 ∨ l.longitude = 0 ∨ l.latitude = 0 ∨ l.longitude = 0 then (999 : ℝ)
    else haversine l.latitude l.longitude l.latitude l.longitude) = 0
  have hc : ¬(l.latitude = 0 ∨ l.longitude = 0 ∨ l.latitude = 0 ∨ l.longitude = 0) := by
    simp [h1, h2]
  rw [if_neg hc, haversine_self]

/-- Claim C5: the distance component is a step function of the haversine
distance (≤5 → 1.0, ≤15 → 0.8, ≤30 → 0.5, else 0.2); a missing location or
any zero coordinate makes the computed distance the sentinel 999 (hence
component 0.2) rather than an error; the distance from a valid location to
itself is 0. -/
theorem distance_score_step_function :
    (∀ (v : Volunteer) (o : Opportunity),
      (calculate_match_score v o).components.distance =
        if calculate_distance v.location o.location ≤ 5 then 1
        else if calculate_distance v.location o.location ≤ 15 then 0.8
        else if calculate_distance v.location o.location ≤ 30 then 0.5
        else 0.2) ∧
    (∀ loc2, calculate_distance none loc2 = 999) ∧
    (∀ loc1, calculate_distance loc1 none = 999) ∧
    (∀ a b : Loc,
      (a.latitude = 0 ∨ a.longitude = 0 ∨ b.latitude = 0 ∨ b.longitude = 0) →
      calculate_distance (some a) (some b) = 999) ∧
    (∀ (v : Volunteer) (o : Opportunity),
      calculate_distance v.location o.location = 999 →
      (calculate_match_score v o).components.distance = 0.2) ∧
    (∀ l : Loc, l.latitude ≠ 0 → l.longitude ≠ 0 →
      calculate_distance (some l) (some l) = 0) := by
  refine ⟨components_distance_eq, fun loc2 => rfl, ?_, ?_, ?_, calculate_distance_self⟩
  · intro loc1
    cases loc1 <;> rfl
  · intro a b h
    show (if a.latitude = 0 ∨ a.longitude = 0 ∨ b.latitude = 0 ∨ b.longitude = 0 then (999 : ℝ)
      else haversine a.latitude a.longitude b.latitude b.longitude) = 999
    rw [if_pos h]
  · intro v o h
    rw [components_distance_eq, h]
    norm_num

/-- Witness for C5: a valid location has distance 0 to itself and scores
distance component 1.0; a missing location and a zero latitude both produce
the sentinel 999. -/
theorem distance_score_step_function_witness :
    calculate_distance (some ⟨30, 31⟩) (some ⟨30, 31⟩) = 0 ∧
    (calculate_match_score ⟨∅, some ⟨30, 31⟩, ∅⟩ ⟨∅, ∅, some ⟨30, 31⟩⟩).components.distance
      = 1 ∧
    calculate_distance none (some ⟨30, 31⟩) = 999 ∧
    calculate_distance (some ⟨0, 31⟩) (some ⟨30, 31⟩) = 999 := by
  have h0 := distance_score_step_function.2.2.2.2.2 ⟨30, 31⟩ (by norm_num) (by norm_num)
  refine ⟨h0, ?_, distance_score_step_function.2.1 _,
    distance_score_step_function.2.2.2.1 _ _ (Or.inl rfl)⟩
  have h1 := distance_score_step_function.1 ⟨∅, some ⟨30, 31⟩, ∅⟩ ⟨∅, ∅, some ⟨30, 31⟩⟩
  simp only at h1
  rw [h0] at h1
  rw [h1]
  norm_num

/-- Claim C6: with no required skills the skills component is 1.0 regardless
of the volunteer; otherwise it is the fraction of required skills covered,
and skills outside the required set change nothing. -/
theorem skills_component_spec (v : Volunteer) (o : Opportunity) :
    (o.requiredSkills = ∅ → (calculate_match_score v o).components.skills = 1) ∧
    (o.requiredSkills ≠ ∅ → (calculate_match_score v o).components.skills =
      ((v.skills ∩ o.requiredSkills).card : ℝ) / (o.requiredSkills.card : ℝ)) ∧
    (∀ extra : Finset String, (∀ x ∈ extra, x ∉ o.requiredSkills) →
      (calculate_match_score { v with skills := v.skills ∪ extra } o).components.skills =
        (calculate_match_score v o).components.skills) := by
  refine ⟨?_, ?_, ?_⟩
  · intro h
    rw [components_skills_eq, if_neg (by simp [h])]
  · intro h
    rw [components_skills_eq, if_pos h]
  · intro extra hdisj
    rw [components_skills_eq, components_skills_eq]
    by_cases h : o.requiredSkills = ∅
    · rw [if_neg (by simp [h]), if_neg (by simp [h])]
    · rw [if_pos h, if_pos h]
      have hinter : (v.skills ∪ extra) ∩ o.requiredSkills = v.skills ∩ o.requiredSkills := by
        rw [Finset.union_inter_distrib_right]
        have hempty : extra ∩ o.requiredSkills = ∅ := by
          rw [Finset.eq_empty_iff_forall_not_mem]
          intro x hx
          exact hdisj x (Finset.mem_inter.mp hx).1 (Finset.mem_inter.mp hx).2
        rw [hempty, Finset.union_empty]
      simp only [hinter]

/-- Witness for C6: a volunteer covering one of two required skills scores
exactly 1/2 on the skills component. -/
theorem skills_component_spec_witness :
    (calculate_match_score ⟨{"tutoring"}, none, ∅⟩
      ⟨{"tutoring", "cooking"}, ∅, none⟩).components.skills = 1 / 2 := by
  have h := (skills_component_spec ⟨{"tutoring"}, none, ∅⟩
    ⟨{"tutoring", "cooking"}, ∅, none⟩).2.1 (by decide)
  rw [h]
  rw [show ({"tutoring"} ∩ {"tutoring", "cooking"} : Finset String).card = 1 from by decide]
  rw [show ({"tutoring", "cooking"} : Finset String).card = 2 from by decide]
  norm_num

/-- Claim C9: identical skill sets, zero distance and full availability
overlap give total ≥ 0.8 and skills component 1.0. -/
theorem perfect_match_spec (v : Volunteer) (o : Opportunity)
    (hs : v.skills = o.requiredSkills)
    (hd : calculate_distance v.location o.location = 0)
    (ha : o.timeSlots ⊆ v.availability) :
    (0.8 : ℝ) ≤ (calculate_match_score v o).total ∧
    (calculate_match_score v o).components.skills = 1 := by
  have hdist : (calculate_match_score v o).components.distance = 1 := by
    rw [components_distance_eq, hd]
    norm_num
  have hskills : (calculate_match_score v o).components.skills = 1 := by
    rw [components_skills_eq]
    by_cases h : o.requiredSkills = ∅
    · rw [if_neg (by simp [h])]
    · rw [if_pos h, hs, Finset.inter_self]
      have hcard : (o.requiredSkills.card : ℝ) ≠ 0 :=
        Nat.cast_ne_zero.mpr (by simpa [Finset.card_eq_zero] using h)
      exact div_self hcard
  have havail : (0.5 : ℝ) ≤ (calculate_match_score v o).components.availability := by
    rw [components_availability_eq]
    by_cases h : o.timeSlots ≠ ∅ ∧ v.availability ≠ ∅
    · rw [if_pos h]
      have hinter : v.availability ∩ o.timeSlots = o.timeSlots :=
        Finset.inter_eq_right.mpr ha
      rw [hinter]
      have hcard : (o.timeSlots.card : ℝ) ≠ 0 := by
        simp only [ne_eq, Nat.cast_eq_zero, Finset.card_eq_zero]
        exact h.1
      rw [div_self hcard]
      norm_num
    · rw [if_neg h]
  refine ⟨?_, hskills⟩
  rw [total_eq, hdist, hskills]
  rw [le_min_iff]
  constructor
  · nlinarith [havail]
  · norm_num

/-- Witness for C9: identical single skill, same valid location, time slot
covered by availability. -/
theorem perfect_match_spec_witness :
    (0.8 : ℝ) ≤ (calculate_match_score
      ⟨{"teaching"}, some ⟨30, 31⟩, {"weekend-morning"}⟩
      ⟨{"teaching"}, {"weekend-morning"}, some ⟨30, 31⟩⟩).total ∧
    (calculate_match_score
      ⟨{"teaching"}, some ⟨30, 31⟩, {"weekend-morning"}⟩
      ⟨{"teaching"}, {"weekend-morning"}, some ⟨30, 31⟩⟩).components.skills = 1 :=
  perfect_match_spec _ _ rfl
    (calculate_distance_self ⟨30, 31⟩ (by norm_num) (by norm_num))
    (by decide)

/-- Claim C4: `rank_opportunities` returns a list sorted in descending order
of total score, containing only pairs with total ≥ 0.30, of length at most
`limit`, in which every pair is an input opportunity together with its
`calculate_match_score` result. -/
theorem rank_opportunities_spec (v : Volunteer) (opps : List Opportunity) (limit : Nat) :
    List.Pairwise (fun p q : Opportunity × MatchScore => q.2.total ≤ p.2.total)
      (rank_opportunities v opps limit) ∧
    (∀ p ∈ rank_opportunities v opps limit, (0.3 : ℝ) ≤ p.2.total) ∧
    (rank_opportunities v opps limit).length ≤ limit ∧
    (∀ p ∈ rank_opportunities v opps limit,
      p.1 ∈ opps ∧ p.2 = calculate_match_score v p.1) := by
  have hmem : ∀ p ∈ rank_opportunities v opps limit,
      p ∈ (opps.map fun o => (o, calculate_match_score v o)).filter
        (fun p => decide ((0.3 : ℝ) ≤ p.2.total)) := by
    intro p hp
    unfold rank_opportunities at hp
    exact (List.mem_insertionSort scoreDesc).mp ((List.take_sublist _ _).subset hp)
  refine ⟨?_, ?_, ?_, ?_⟩
  · exact List.Pairwise.sublist (List.take_sublist _ _)
      (List.sorted_insertionSort scoreDesc _)
  · intro p hp
    have := (List.mem_filter.mp (hmem p hp)).2
    exact of_decide_eq_true this
  · unfold rank_opportunities
    simp only [List.length_take]
    exact min_le_left _ _
  · intro p hp
    have h1 := (List.mem_filter.mp (hmem p hp)).1
    obtain ⟨o, ho, heq⟩ := List.mem_map.mp h1
    constructor
    · rw [← heq]
      exact ho
    · rw [← heq]

/-! ### Projection service — src/infrastructure/db/projections.py

The `applications` and `match_suggestions` projection tables are embedded as
functions from the aggregate id to an optional row.  An event payload is a
dict; each key a handler may read becomes an `Option` field (`none` = key
absent).  A handler that raises inside its session — be it a `KeyError` on
a missing mandatory key, or the unconditional `ArgumentError` of
`_handle_created` (see `app_handle_created` below) — rolls the transaction
back and leaves the table unchanged, which the embedding renders as
returning the table untouched.  JSON-serialised blobs (`score_components`,
`explanation`) are kept as uninterpreted strings. -/

/-- Row of the `applications` projection table. -/
structure AppRow where
  volunteer_id : String
  opportunity_id : String
  organization_id : Option String
  status : String
  cover_letter : Option String
  submitted_at : Option Nat
  reviewed_at : Option Nat
  created_at : Nat
  updated_at : Nat
  version : Nat

/-- Row of the `match_suggestions` projection table. -/
structure SuggRow where
  volunteer_id : String
  opportunity_id : String
  organization_id : String
  score : ℚ
  score_components : String
  explanation : String
  generated_at : Nat
  status : String
  created_at : Nat

/-- Event payload dict, restricted to the keys the projection handlers read.
An outer `none` means the key is absent; for `organizationId` and
`coverLetter` (read both via `payload.get(...)` and via `key in payload`)
the inner `Option` is the possibly-null stored value. -/
structure ProjPayload where
  volunteerId : Option String
  opportunityId : Option String
  organizationId : Option (Option String)
  status : Option String
  coverLetter : Option (Option String)
  submittedAt : Option Nat
  reviewedAt : Option Nat
  newState : Option String
  newStatus : Option String
  score : Option ℚ
  scoreComponents : Option String
  explanation : Option String
  generatedAt : Option Nat

/-- The two projection tables the service maintains. -/
@[ext]
structure ProjDB where
  applications : Nat → Option AppRow
  match_suggestions : Nat → Option SuggRow

/-- `ApplicationProjectionHandler._handle_created`: the source writes an
INSERT ... ON CONFLICT (id) DO UPDATE statement as a textual clause but wraps
it in the `sqlalchemy.dialects.postgresql` `insert()` construct
(projections.py line 80, `stmt = insert(text(...))`).  `insert()` requires a
DML table target and rejects a `TextClause` with `ArgumentError`, so every
call raises before any SQL executes; the session rolls back and the
`applications` table is left unchanged.  (The suggestion handler at line 198
uses a bare `text(...)` and does reach the database.) -/
def app_handle_created (_e : StoredEvent ProjPayload) (tbl : Nat → Option AppRow) :
    Nat → Option AppRow :=
  tbl

/-- `ApplicationProjectionHandler._handle_state_changed`: UPDATE status,
updated_at, version (and reviewed_at when the new state is `reviewing`)
WHERE id — a no-op when the row does not exist. -/
def app_handle_state_changed (e : StoredEvent ProjPayload) (tbl : Nat → Option AppRow) :
    Nat → Option AppRow :=
  match e.payload.newState with
  | none => tbl
  | some ns =>
    fun id =>
      if id = e.aggregate_id then
        (tbl e.aggregate_id).map fun old =>
          { old with
            status := ns
            updated_at := e.occurred_at
            version := e.version
            reviewed_at := if ns = "reviewing" then some e.occurred_at else old.reviewed_at }
      else tbl id

/-- `ApplicationProjectionHandler._handle_updated`: dynamic UPDATE of
cover_letter and/or organization_id (plus updated_at, version) WHERE id,
executed only when at least one of the two keys is present. -/
def app_handle_updated (e : StoredEvent ProjPayload) (tbl : Nat → Option AppRow) :
    Nat → Option AppRow :=
  if e.payload.coverLetter.isSome ∨ e.payload.organizationId.isSome then
    fun id =>
      if id = e.aggregate_id then
        (tbl e.aggregate_id).map fun old =>
          let r1 := if e.payload.coverLetter.isSome then
              { old with cover_letter := e.payload.coverLetter.join } else old
          let r2 := if e.payload.organizationId.isSome then
              { r1 with organization_id := e.payload.organizationId.join } else r1
          { r2 with updated_at := e.occurred_at, version := e.version }
      else tbl id
  else tbl

/-- `ApplicationProjectionHandler.handle_event`: application-aggregate guard
plus dispatch on the event type. -/
def app_handler_handle (e : StoredEvent ProjPayload) (tbl : Nat → Option AppRow) :
    Nat → Option AppRow :=
  if e.aggregate_type ≠ "Application" then tbl
  else if e.event_type = "application.created" then app_handle_created e tbl
  else if e.event_type = "application.state.changed" then app_handle_state_changed e tbl
  else if e.event_type = "application.updated" then app_handle_updated e tbl
  else tbl

/-- `MatchSuggestionProjectionHandler._handle_created`: INSERT ... ON
CONFLICT (id) DO UPDATE SET score, score_components, explanation, status. -/
def sugg_handle_created (e : StoredEvent ProjPayload) (tbl : Nat → Option SuggRow) :
    Nat → Option SuggRow :=
  match e.payload.volunteerId, e.payload.opportunityId, e.payload.organizationId,
      e.payload.score, e.payload.scoreComponents, e.payload.explanation,
      e.payload.generatedAt with
  | some vol, some opp, some (some org), some sc, some comps, some expl, some gen =>
    fun id =>
      if id = e.aggregate_id then
        some (match tbl e.aggregate_id with
          | none =>
            { volunteer_id := vol, opportunity_id := opp, organization_id := org,
              score := sc, score_components := comps, explanation := expl,
              generated_at := gen, status := e.payload.status.getD "active",
              created_at := e.occurred_at }
          | some old =>
            { old with
              score := sc
              score_components := comps
              explanation := expl
              status := e.payload.status.getD "active" })
      else tbl id
  | _, _, _, _, _, _, _ => tbl

/-- `MatchSuggestionProjectionHandler._handle_status_changed`: UPDATE status
WHERE id. -/
def sugg_handle_status_changed (e : StoredEvent ProjPayload)
    (tbl : Nat → Option SuggRow) : Nat → Option SuggRow :=
  match e.payload.newStatus with
  | none => tbl
  | some ns =>
    fun id =>
      if id = e.aggregate_id then
        (tbl e.aggregate_id).map fun old => { old with status := ns }
      else tbl id

/-- `MatchSuggestionProjectionHandler.handle_event`. -/
def sugg_handler_handle (e : StoredEvent ProjPayload) (tbl : Nat → Option SuggRow) :
    Nat → Option SuggRow :=
  if e.aggregate_type ≠ "MatchSuggestion" then tbl
  else if e.event_type = "match.suggestion.created" then sugg_handle_created e tbl
  else if e.event_type = "match.suggestion.status.changed" then
    sugg_handle_status_changed e tbl
  else tbl

/-- Python `str.startswith`, embedded as a take-and-compare on the character
list; `String.startsWith` of this toolchain has identical semantics but is an
extern the kernel cannot evaluate. -/
def starts_with (s p : String) : Bool :=
  decide (s.data.take p.data.length = p.data)

/-- `ProjectionService.handle_event`: pass the event to every registered
handler whose `handles_event_type` predicate matches (the application handler
on the `application.` event-type head, the suggestion handler on the
`match.` or `suggestion.` head, in registration order). -/
def projection_service_handle (e : StoredEvent ProjPayload) (db : ProjDB) : ProjDB :=
  let db1 :=
    if starts_with e.event_type "application." then
      { db with applications := app_handler_handle e db.applications }
    else db
  if starts_with e.event_type "match." || starts_with e.event_type "suggestion." then
    { db1 with match_suggestions := sugg_handler_handle e db1.match_suggestions }
  else db1

lemma app_handle_state_changed_idem (e : StoredEvent ProjPayload)
    (tbl : Nat → Option AppRow) :
    app_handle_state_changed e (app_handle_state_changed e tbl) =
      app_handle_state_changed e tbl := by
  unfold app_handle_state_changed
  cases hn : e.payload.newState with
  | none => rfl
  | some ns =>
  funext id
  by_cases hid : id = e.aggregate_id <;> simp [hid]
  cases tbl e.aggregate_id with
  | none => rfl
  | some old =>
  by_cases hr : ns = "reviewing" <;> simp [hr]

lemma app_handle_updated_idem (e : StoredEvent ProjPayload) (tbl : Nat → Option AppRow) :
    app_handle_updated e (app_handle_updated e tbl) = app_handle_updated e tbl := by
  unfold app_handle_updated
  by_cases hp : e.payload.coverLetter.isSome ∨ e.payload.organizationId.isSome
  · simp only [if_pos hp]
    funext id
    by_cases hid : id = e.aggregate_id <;> simp [hid]
    cases tbl e.aggregate_id with
    | none => rfl
    | some old =>
    by_cases hcl : e.payload.coverLetter.isSome <;>
      by_cases horg : e.payload.organizationId.isSome <;>
        simp [hcl, horg]
  · simp only [if_neg hp]

lemma app_handler_handle_idem (e : StoredEvent ProjPayload) (tbl : Nat → Option AppRow) :
    app_handler_handle e (app_handler_handle e tbl) = app_handler_handle e tbl := by
  unfold app_handler_handle
  split_ifs <;>
    first
      | rfl
      | exact app_handle_state_changed_idem e tbl
      | exact app_handle_updated_idem e tbl

lemma sugg_handle_created_idem (e : StoredEvent ProjPayload) (tbl : Nat → Option SuggRow) :
    sugg_handle_created e (sugg_handle_created e tbl) = sugg_handle_created e tbl := by
  unfold sugg_handle_created
  cases hv : e.payload.volunteerId with
  | none => rfl
  | some vol =>
  cases ho : e.payload.opportunityId with
  | none => rfl
  | some opp =>
  cases hg : e.payload.organizationId with
  | none => rfl
  | some orgOpt =>
  cases orgOpt with
  | none => rfl
  | some org =>
  cases hsc : e.payload.score with
  | none => rfl
  | some sc =>
  cases hco : e.payload.scoreComponents with
  | none => rfl
  | some comps =>
  cases hex : e.payload.explanation with
  | none => rfl
  | some expl =>
  cases hge : e.payload.generatedAt with
  | none => rfl
  | some gen =>
  funext id
  by_cases hid : id = e.aggregate_id <;> simp [hid]
  cases tbl e.aggregate_id <;> rfl

lemma sugg_handle_status_changed_idem (e : StoredEvent ProjPayload)
    (tbl : Nat → Option SuggRow) :
    sugg_handle_status_changed e (sugg_handle_status_changed e tbl) =
      sugg_handle_status_changed e tbl := by
  unfold sugg_handle_status_changed
  cases hn : e.payload.newStatus with
  | none => rfl
  | some ns =>
  funext id
  by_cases hid : id = e.aggregate_id <;> simp [hid]
  cases tbl e.aggregate_id <;> rfl

lemma sugg_handler_handle_idem (e : StoredEvent ProjPayload) (tbl : Nat → Option SuggRow) :
    sugg_handler_handle e (sugg_handler_handle e tbl) = sugg_handler_handle e tbl := by
  unfold sugg_handler_handle
  split_ifs <;>
    first
      | rfl
      | exact sugg_handle_created_idem e tbl
      | exact sugg_handle_status_changed_idem e tbl

lemma projection_handle_replay_safe (e : StoredEvent ProjPayload) (db : ProjDB) :
    projection_service_handle e (projection_service_handle e db) =
      projection_service_handle e db := by
  unfold projection_service_handle
  by_cases ha : starts_with e.event_type "application." <;>
    by_cases hm : starts_with e.event_type "match." || starts_with e.event_type "suggestion." <;>
      simp only [ha, hm, if_pos, if_neg, Bool.false_eq_true, if_false, if_true,
        not_false_iff] <;>
        ext1 <;>
          simp [app_handler_handle_idem, sugg_handler_handle_idem]

/-- Claim C7 is a code bug: the claim (and the spec) say every handler
performs an idempotent insert-or-update keyed by the aggregate id, and the
docstring plus the embedded SQL of `_handle_created` show that is the intent,
but the `insert(text(...))` wrapper at projections.py line 80 raises
`ArgumentError` on every call.  Evaluating the handle path at such a failing
input: an `application.created` event rolls back and leaves the projection
tables entirely unchanged — the application row is never inserted, so
replaying it twice trivially equals replaying it once, yet no upsert ever
happens. -/
theorem application_created_never_projected (db : ProjDB) (aggregate_id : Nat)
    (now version : Nat) (payload : ProjPayload) :
    projection_service_handle
      ⟨aggregate_id, "Application", "application.created", now, version, payload, "1.0.0"⟩
      db = db := rfl

/-! ### Application service — src/services/applications/service.py

The repository is embedded as the list of stored applications;
`find_by_volunteer` filters it.  The fresh UUID and the `datetime.utcnow()`
timestamp taken during submission are explicit parameters. -/

/-- Pydantic model `Application` from services/shared/models.py (datetimes
embedded as naturals). -/
structure Application where
  id : String
  volunteerId : String
  opportunityId : String
  organizationId : Option String
  status : String
  coverLetter : Option String
  submittedAt : Option Nat
  reviewedAt : Option Nat
  createdAt : Nat
  updatedAt : Option Nat
  deriving DecidableEq, Repr

/-- `SubmitApplicationCommand`. -/
structure SubmitApplicationCommand where
  volunteerId : String
  opportunityId : String
  coverLetter : Option String
  deriving DecidableEq, Repr

/-- `ApplicationRepository.find_by_volunteer` (file backend: filter the cache
by `volunteerId`; relational backend: `WHERE volunteer_id = ...`). -/
def find_by_volunteer (repo : List Application) (volunteer_id : String) :
    List Application :=
  repo.filter fun app => app.volunteerId == volunteer_id

/-- The terminal status list (rejected, cancelled, completed) checked by
`ApplicationService.submit_application`. -/
def inactiveStatuses : List String := ["rejected", "cancelled", "completed"]

/-- `ApplicationService.submit_application` followed by
`ApplicationRepository.create`: validates the ids, rejects when an existing
application of the volunteer for the same opportunity is still active,
otherwise builds a `submitted` application stamped with `now` and stores it
(`create` itself raises when the fresh id is already taken). -/
def submit_application (repo : List Application) (command : SubmitApplicationCommand)
    (new_id : String) (now : Nat) : Except String (Application × List Application) :=
  if command.volunteerId = "" then .error "Volunteer ID is required"
  else if command.opportunityId = "" then .error "Opportunity ID is required"
  else if (find_by_volunteer repo command.volunteerId).any
      (fun app => app.opportunityId == command.opportunityId &&
        !(inactiveStatuses.contains app.status)) then
    .error "Application already exists for this opportunity"
  else if repo.any (fun app => app.id == new_id) then
    .error ("Application " ++ new_id ++ " already exists")
  else
    let application : Application :=
      { id := new_id
        volunteerId := command.volunteerId
        opportunityId := command.opportunityId
        organizationId := none
        status := "submitted"
        coverLetter := command.coverLetter
        submittedAt := some now
        reviewedAt := none
        createdAt := now
        updatedAt := some now }
    .ok (application, repo ++ [application])

/-- Claim C8: submission fails with a validation error whenever some existing
application of the same volunteer for the same opportunity is in a
non-terminal status; when every such application is terminal (and the command
carries well-formed ids and a fresh id), submission succeeds and the created
application has status `submitted`. -/
theorem submit_application_spec (repo : List Application)
    (command : SubmitApplicationCommand) (new_id : String) (now : Nat) :
    ((∃ app ∈ find_by_volunteer repo command.volunteerId,
        app.opportunityId = command.opportunityId ∧ app.status ∉ inactiveStatuses) →
      ∃ msg, submit_application repo command new_id now = .error msg) ∧
    (command.volunteerId ≠ "" → command.opportunityId ≠ "" →
      (∀ app ∈ find_by_volunteer repo command.volunteerId,
        app.opportunityId = command.opportunityId → app.status ∈ inactiveStatuses) →
      (∀ app ∈ repo, app.id ≠ new_id) →
      ∃ app, submit_application repo command new_id now = .ok (app, repo ++ [app]) ∧
        app.status = "submitted" ∧ app.volunteerId = command.volunteerId ∧
        app.opportunityId = command.opportunityId) := by
  constructor
  · rintro ⟨app, happ, hopp, hact⟩
    unfold submit_application
    by_cases h1 : command.volunteerId = ""
    · exact ⟨_, by rw [if_pos h1]⟩
    by_cases h2 : command.opportunityId = ""
    · exact ⟨_, by rw [if_neg h1, if_pos h2]⟩
    have hdup : (find_by_volunteer repo command.volunteerId).any
        (fun app => app.opportunityId == command.opportunityId &&
          !(inactiveStatuses.contains app.status)) = true := by
      rw [List.any_eq_true]
      refine ⟨app, happ, ?_⟩
      simp [hopp, hact]
    exact ⟨_, by rw [if_neg h1, if_neg h2, if_pos hdup]⟩
  · intro h1 h2 hterm hfresh
    have hdup : (find_by_volunteer repo command.volunteerId).any
        (fun app => app.opportunityId == command.opportunityId &&
          !(inactiveStatuses.contains app.status)) = false := by
      rw [List.any_eq_false]
      intro app happ
      have := hterm app happ
      by_cases hopp : app.opportunityId = command.opportunityId
      · simp [this hopp]
      · simp [hopp]
    have hid : repo.any (fun app => app.id == new_id) = false := by
      rw [List.any_eq_false]
      intro app happ
      simp [hfresh app happ]
    refine ⟨{ id := new_id
              volunteerId := command.volunteerId
              opportunityId := command.opportunityId
              organizationId := none
              status := "submitted"
              coverLetter := command.coverLetter
              submittedAt := some now
              reviewedAt := none
              createdAt := now
              updatedAt := some now }, ?_, rfl, rfl, rfl⟩
    unfold submit_application
    rw [if_neg h1, if_neg h2, hdup, hid]
    rfl

/-- Witness for C8: resubmitting after a completed application for the same
pair succeeds with status `submitted`; submitting while an application for
the pair is still `submitted` fails. -/
theorem submit_application_spec_witness :
    (∃ app, submit_application
        [⟨"a1", "v1", "o1", none, "completed", none, some 0, none, 0, some 0⟩]
        ⟨"v1", "o1", none⟩ "a9" 5
        = .ok (app, [⟨"a1", "v1", "o1", none, "completed", none, some 0, none, 0, some 0⟩]
            ++ [app]) ∧
      app.status = "submitted" ∧ app.volunteerId = "v1" ∧ app.opportunityId = "o1") ∧
    (∃ msg, submit_application
        [⟨"a2", "v1", "o1", none, "submitted", none, some 0, none, 0, some 0⟩]
        ⟨"v1", "o1", none⟩ "a9" 5 = .error msg) := by
  constructor
  · exact (submit_application_spec
      [⟨"a1", "v1", "o1", none, "completed", none, some 0, none, 0, some 0⟩]
      ⟨"v1", "o1", none⟩ "a9" 5).2 (by decide) (by decide) (by decide) (by decide)
  · exact (submit_application_spec
      [⟨"a2", "v1", "o1", none, "submitted", none, some 0, none, 0, some 0⟩]
      ⟨"v1", "o1", none⟩ "a9" 5).1
      ⟨⟨"a2", "v1", "o1", none, "submitted", none, some 0, none, 0, some 0⟩,
        by decide, by decide, by decide⟩

end Seraaj
